import Mathlib

/-!
Verification of the playwright-proxy repository: a shallow embedding of the
relay core (header sanitizer, request classifier, stream reconstructor,
relay orchestration, resource lifecycle) together with theorems settling the
specification claims against it.

Header maps are modelled as association lists of (key, value) string pairs.
Response bodies on the buffered and error paths are strings; the streaming
reconstructor works on byte lists (List Nat).
-/

/-- JS String.prototype.startsWith specialised to character lists. -/
def isPrefixL : List Char → List Char → Bool
  | [], _ => true
  | _ :: _, [] => false
  | a :: as, b :: bs => a == b && isPrefixL as bs

/-- ASCII lowercasing of one character, as JS String.prototype.toLowerCase
acts on the header names occurring here. -/
def charLower (c : Char) : Char :=
  if 65 ≤ c.toNat && c.toNat ≤ 90 then Char.ofNat (c.toNat + 32) else c

/-- ASCII lowercasing of a string. -/
def strLower (s : String) : String :=
  ⟨s.data.map charLower⟩

/-- JS String.prototype.startsWith on strings. -/
def strStartsWith (s p : String) : Bool :=
  isPrefixL p.data s.data

/-- JS String.prototype.includes: substring containment test. -/
def includesL (l sub : List Char) : Bool :=
  (List.range (l.length + 1)).any (fun i => isPrefixL sub (l.drop i))

/-- JS String.prototype.includes on strings. -/
def includes (s sub : String) : Bool :=
  includesL s.data sub.data

/-- The unsafe request-header list of UnifiedRequestHandler._filterUnsafeHeaders. -/
def unsafeHeaders : List String :=
  ["accept-charset", "accept-encoding", "access-control-request-headers",
   "access-control-request-method", "connection", "content-length", "cookie",
   "cookie2", "date", "dnt", "expect", "host", "keep-alive", "origin",
   "referer", "te", "trailer", "transfer-encoding", "upgrade", "user-agent",
   "via", "sec-ch-ua", "sec-ch-ua-mobile", "sec-ch-ua-platform",
   "sec-fetch-dest", "sec-fetch-mode", "sec-fetch-site", "sec-fetch-user"]

/-- The drop condition of _filterUnsafeHeaders: the lowercased key is in the
unsafe set or starts with proxy- or sec-. -/
def isUnsafeKey (key : String) : Bool :=
  unsafeHeaders.contains (strLower key)
    || strStartsWith (strLower key) ("proxy-")
    || strStartsWith (strLower key) ("sec-")

/-- UnifiedRequestHandler._filterUnsafeHeaders: keep exactly the entries whose
key is not unsafe, with original key and value unchanged. -/
def filterUnsafeHeaders (headers : List (String × String)) : List (String × String) :=
  headers.filter (fun kv => !(isUnsafeKey kv.1))

/-- The accept header read of _isStreamRequest: exact lookup of the lowercase
key, defaulting to the empty string. -/
def acceptOf (headers : List (String × String)) : String :=
  (headers.lookup ("accept")).getD ""

/-- The content-type header read of _isStreamRequest. -/
def contentTypeOf (headers : List (String × String)) : String :=
  (headers.lookup ("content-type")).getD ""

/-- UnifiedRequestHandler._isStreamRequest: the streaming-vs-buffered
classifier, a pure disjunction of substring tests. -/
def isStreamRequest (headers : List (String × String)) (url : String) : Bool :=
  let accept := acceptOf headers
  let contentType := contentTypeOf headers
  includes accept ("text/event-stream")
    || includes accept ("application/stream")
    || includes url ("/stream")
    || includes url ("chat/completions")
    || includes url ("v1/completions")
    || includes url ("generate")
    || includes url ("streaming")
    || (includes contentType ("application/json") && includes url ("stream"))

/-- The accept clause of the classification claim: the accept header value
contains an event-stream or generic-stream media type. -/
def claimAcceptClause (headers : List (String × String)) : Prop :=
  includes (acceptOf headers) ("text/event-stream") = true
    ∨ includes (acceptOf headers) ("application/stream") = true

/-- The URL clause of the classification claim. -/
def claimUrlClause (url : String) : Prop :=
  includes url ("/stream") = true
    ∨ includes url ("generate") = true
    ∨ includes url ("streaming") = true
    ∨ includes url ("chat/completions") = true
    ∨ includes url ("v1/completions") = true

/-- The JSON clause of the classification claim: JSON content type and a URL
containing stream. -/
def claimJsonClause (headers : List (String × String)) (url : String) : Prop :=
  includes (contentTypeOf headers) ("application/json") = true
    ∧ includes url ("stream") = true

/-- A thrown JS error value, as the relay observes it: a message and a stack. -/
structure JsError where
  message : String
  stack : String
deriving DecidableEq

/-- The serialisable response shape relayed to the caller on the buffered and
error paths. -/
structure ProxyResponse where
  status : Nat
  statusText : String
  headers : List (String × String)
  body : String
deriving DecidableEq

/-- The outcome of an awaited JS expression: a value or a thrown error. -/
inductive Outcome (α : Type) where
  | value : α → Outcome α
  | thrown : JsError → Outcome α
deriving DecidableEq

/-- The fixed 400 response of handleProxyRequest when the url query parameter
is absent. -/
def missingUrlResponse : ProxyResponse :=
  ⟨400, "", [("content-type", "text/plain")], "Missing url parameter"⟩

/-- The fixed 500 response produced by the catch block of handleProxyRequest. -/
def internalServerError : ProxyResponse :=
  ⟨500, "", [("content-type", "text/plain")], "Internal Server Error"⟩

/-- The try/catch of handleProxyRequest: a thrown body is converted to the
fixed 500 response, a returned response passes through. -/
def catchToResponse (body : Outcome ProxyResponse) : ProxyResponse :=
  match body with
  | .value r => r
  | .thrown _ => internalServerError

/-- JS try/finally composition: a failure thrown by the finally clause
replaces the primary outcome, otherwise the primary outcome stands. -/
def finallySemantics {α : Type} (primary : Outcome α) (teardown : Outcome Unit) : Outcome α :=
  match teardown with
  | .value _ => primary
  | .thrown e => .thrown e

/-- The teardown pattern close().catch(() => \x7b \x7d): any rejection of the
teardown step is discarded. -/
def swallowTeardown (_t : Outcome Unit) : Outcome Unit :=
  .value ()

/-- src/index.ts handleProxyRequest. The url parameter is checked first; the
page is acquired before the try block, so an acquisition failure propagates
raw; the try body is converted by the catch; the finally clause runs
handler.cleanup() (which only resets a flag and logs, hence never throws)
followed by an unguarded page.close(). The second component counts how many
times page.close() is invoked. -/
def handleProxyFull (urlParam : Option String) (acquire : Outcome Unit)
    (body : Outcome ProxyResponse) (close : Outcome Unit) :
    Outcome ProxyResponse × Nat :=
  match urlParam with
  | none => (.value missingUrlResponse, 0)
  | some _ =>
    match acquire with
    | .thrown e => (.thrown e, 0)
    | .value _ => (finallySemantics (.value (catchToResponse body)) close, 1)

/-- The part_001 variant of handleProxyRequest: browser launch and page
creation happen inside the try block, and the finally clause closes the page
and the browser through catch-swallowed calls. -/
def handleProxyFullPartOne (urlParam : Option String) (acquire : Outcome Unit)
    (body : Outcome ProxyResponse) (pageClose browserClose : Outcome Unit) :
    Outcome ProxyResponse × Nat :=
  match urlParam with
  | none => (.value missingUrlResponse, 0)
  | some _ =>
    match acquire with
    | .thrown _ => (.value internalServerError, 0)
    | .value _ =>
      (finallySemantics
        (finallySemantics (.value (catchToResponse body)) (swallowTeardown pageClose))
        (swallowTeardown browserClose), 1)

/-- UnifiedRequestHandler.handleRequest error boundary: a thrown failure from
classification, sanitisation or in-context execution becomes a 500 text
response whose body is the fixed prefix together with the error message. -/
def handleRequestModel (exec : Outcome ProxyResponse) : ProxyResponse :=
  match exec with
  | .value r => r
  | .thrown e =>
    ⟨500, "", [("content-type", "text/plain")], "请求处理失败: " ++ e.message⟩

/-- The GET / handler without a url parameter: serve index.html as HTML when
readable, otherwise a 500 text diagnostic. -/
def rootNoUrl (indexFile : Option String) : ProxyResponse :=
  match indexFile with
  | some content => ⟨200, "", [("content-type", "text/html")], content⟩
  | none => ⟨500, "", [("content-type", "text/plain")], "无法读取主页"⟩

/-- Route dispatch of src/index.ts for a request carrying no url query
parameter, in registration order: the /public/* static route (when the file
exists), GET /genspark (its own flow, abstracted as gensparkResult),
GET / (index.html), then the catch-all proxy handler answering 400. -/
def routeNoUrl (method path : String) (staticFile indexFile : Option String)
    (gensparkResult : ProxyResponse) : ProxyResponse :=
  if strStartsWith path ("/public/") && staticFile.isSome then
    ⟨200, "", [], staticFile.getD ""⟩
  else if method == "GET" && path == "/genspark" then
    gensparkResult
  else if method == "GET" && path == "/" then
    rootNoUrl indexFile
  else
    missingUrlResponse

/-- src/index.ts initBrowser state: the memoised browser handle (identified by
a number) and how many engine launches have happened. -/
structure BrowserState where
  browser : Option Nat
  launches : Nat
deriving DecidableEq

/-- src/index.ts initBrowser: launch on first call, memoise, and return the
memoised handle afterwards. -/
def initBrowser (s : BrowserState) : BrowserState × Nat :=
  match s.browser with
  | some b => (s, b)
  | none => (⟨some s.launches, s.launches + 1⟩, s.launches)

/-- A sequence of n sequential initBrowser calls, returning the final state
and the handles returned to each caller. -/
def runInitCalls : Nat → BrowserState → BrowserState × List Nat
  | 0, s => (s, [])
  | n + 1, s =>
    let p := initBrowser s
    let q := runInitCalls n p.1
    (q.1, p.2 :: q.2)

/-- part_001 launchBrowser: every call launches a fresh engine. The state is
the number of engines launched so far; the returned handle is fresh. -/
def launchBrowser (launched : Nat) : Nat × Nat :=
  (launched + 1, launched)

/-- The state of the streaming poll loop in _handleStreamRequest: the chunk
list accumulated so far and the length of the buffer already consumed. -/
structure PollState where
  chunks : List (List Nat)
  lastSentLength : Nat
deriving DecidableEq

/-- One progress event of _handleStreamRequest: slice the new suffix of the
response buffer; when non-empty, append it as a chunk and advance
lastSentLength to the full buffer length. -/
def progressStep (st : PollState) (fullResponseText : List Nat) : PollState :=
  let newChunk := fullResponseText.drop st.lastSentLength
  if newChunk = [] then st
  else ⟨st.chunks ++ [newChunk], fullResponseText.length⟩

/-- The readyState 4 handler of _handleStreamRequest: compute one last delta
against the final buffer and append it when non-empty, then resolve with the
chunk list. -/
def finalFlush (st : PollState) (finalResponseText : List Nat) : List (List Nat) :=
  let finalChunk := finalResponseText.drop st.lastSentLength
  if finalChunk = [] then st.chunks else st.chunks ++ [finalChunk]

/-- The whole streaming reconstruction: fold the progress events over the
observed buffer snapshots, then flush against the final response text. -/
def streamRun (observations : List (List Nat)) (finalText : List Nat) : List (List Nat) :=
  finalFlush (observations.foldl progressStep ⟨[], 0⟩) finalText

/-- One buffer snapshot extends another when the earlier one is an initial
segment of it (the XHR responseText is append-only). -/
def extendsTo (a b : List Nat) : Prop :=
  b.take a.length = a

/-- A monotonically growing sequence of buffer snapshots, starting from the
empty buffer. -/
def growsTo (l : List (List Nat)) : Prop :=
  List.Chain extendsTo [] l

/-- The buffer content after the first k discrete writes of the origin. -/
def writeBoundary (writes : List (List Nat)) (k : Nat) : List Nat :=
  (writes.take k).flatten

/-- The header keys deleted by src/index.ts handleProxyRequest before it
hands the map to the unified handler. -/
def deletedHeaderKeys : List String :=
  ["host", "connection", "content-length", "accept-encoding",
   "x-playwright-api-request", "x-direct-url", "x-forwarded-for",
   "x-forwarded-port", "x-forwarded-proto"]

/-- Removal of one key from a header map (JS delete on a plain object whose
keys are exact strings). -/
def deleteKey (headers : List (String × String)) (k : String) : List (String × String) :=
  headers.filter (fun kv => kv.1 != k)

/-- The fixed User-Agent constant of src/index.ts. -/
def userAgent : String :=
  "Mozilla/5.0 (Windows NT 10.0; Win64; x64) AppleWebKit/537.36 (KHTML, like Gecko) Chrome/58.0.3029.110 Safari/537.3"

/-- The header preparation of src/index.ts handleProxyRequest: delete the
fixed key list, then assign the fixed User-Agent (modelled as replacing any
user-agent entry and appending the constant). -/
def prepareHeaders (headers : List (String × String)) : List (String × String) :=
  deleteKey (deletedHeaderKeys.foldl deleteKey headers) ("user-agent")
    ++ [("user-agent", userAgent)]

theorem progressStep_of_drop_eq_nil (st : PollState) (b : List Nat)
    (h : b.drop st.lastSentLength = []) : progressStep st b = st := by
  simp [progressStep, h]

theorem progressStep_of_drop_ne_nil (st : PollState) (b : List Nat)
    (h : b.drop st.lastSentLength ≠ []) :
    progressStep st b = ⟨st.chunks ++ [b.drop st.lastSentLength], b.length⟩ := by
  simp [progressStep, h]

theorem extendsTo_elim {a b : List Nat} (h : extendsTo a b) :
    b = a ++ b.drop a.length := by
  conv_lhs => rw [← List.take_append_drop a.length b]
  rw [h]

theorem finalFlush_eq_progressStep (st : PollState) (b : List Nat) :
    finalFlush st b = (progressStep st b).chunks := by
  by_cases h : b.drop st.lastSentLength = []
  · rw [progressStep_of_drop_eq_nil st b h]
    simp [finalFlush, h]
  · rw [progressStep_of_drop_ne_nil st b h]
    simp [finalFlush, h]

/-- Invariant of the progress-event fold over a monotonically growing buffer:
the concatenation of the chunks equals the last observed buffer,
lastSentLength equals its length, and all chunks are non-empty. -/
theorem foldl_progress_chain (l : List (List Nat)) :
    ∀ (prev : List Nat) (st : PollState),
      st.chunks.flatten = prev → st.lastSentLength = prev.length →
      (∀ c ∈ st.chunks, c ≠ []) → List.Chain extendsTo prev l →
      (l.foldl progressStep st).chunks.flatten = l.getLastD prev
        ∧ (l.foldl progressStep st).lastSentLength = (l.getLastD prev).length
        ∧ ∀ c ∈ (l.foldl progressStep st).chunks, c ≠ [] := by
  induction l with
  | nil =>
    intro prev st h1 h2 h3 _
    exact ⟨h1, h2, h3⟩
  | cons b l ih =>
    intro prev st h1 h2 h3 hchain
    rw [List.chain_cons] at hchain
    obtain ⟨hext, hchain'⟩ := hchain
    have hb : b = prev ++ b.drop prev.length := extendsTo_elim hext
    rw [List.foldl_cons, List.getLastD_cons]
    by_cases hdrop : b.drop prev.length = []
    · have hbp : b = prev := by rw [hb, hdrop, List.append_nil]
      rw [progressStep_of_drop_eq_nil st b (by rw [h2]; exact hdrop)]
      exact ih b st (by rw [h1, hbp]) (by rw [h2, hbp]) h3 hchain'
    · rw [progressStep_of_drop_ne_nil st b (by rw [h2]; exact hdrop)]
      refine ih b ⟨st.chunks ++ [b.drop st.lastSentLength], b.length⟩ ?_ rfl ?_ hchain'
      · show (st.chunks ++ [b.drop st.lastSentLength]).flatten = b
        rw [List.flatten_append, h1, h2]
        simp only [List.flatten, List.append_nil]
        exact hb.symm
      · intro c hc
        rcases List.mem_append.mp hc with hc1 | hc2
        · exact h3 c hc1
        · rw [List.mem_singleton] at hc2
          rw [hc2, h2]
          exact hdrop

theorem writeBoundary_mono (writes : List (List Nat)) {k k' : Nat} (h : k ≤ k') :
    writeBoundary writes k' =
      writeBoundary writes k ++ ((writes.drop k).take (k' - k)).flatten := by
  unfold writeBoundary
  rw [← List.flatten_append, ← List.take_add]
  congr 2
  omega

theorem writeBoundary_length_mono (writes : List (List Nat)) {k k' : Nat} (h : k ≤ k') :
    (writeBoundary writes k).length ≤ (writeBoundary writes k').length := by
  rw [writeBoundary_mono writes h, List.length_append]
  omega

theorem writeBoundary_full (writes : List (List Nat)) :
    writeBoundary writes writes.length = writes.flatten := by
  unfold writeBoundary
  rw [List.take_length]

/-- Chunk-count invariant of the progress-event fold when every observed
snapshot is a write boundary: the number of chunks grows by at most the
number of write boundaries strictly beyond the boundary already consumed. -/
theorem foldl_progress_bound (writes : List (List Nat)) (ks : List Nat) :
    ∀ (k0 : Nat) (st : PollState),
      List.Pairwise (· ≤ ·) ks → (∀ k ∈ ks, k0 ≤ k ∧ k ≤ writes.length) →
      k0 ≤ writes.length →
      st.lastSentLength = (writeBoundary writes k0).length →
      ∃ k1, k0 ≤ k1 ∧ k1 ≤ writes.length ∧
        ((ks.map (writeBoundary writes)).foldl progressStep st).lastSentLength
          = (writeBoundary writes k1).length ∧
        ((ks.map (writeBoundary writes)).foldl progressStep st).chunks.length
          ≤ st.chunks.length + (k1 - k0) := by
  induction ks with
  | nil =>
    intro k0 st _ _ hk0 hlsl
    simp only [List.map_nil, List.foldl_nil]
    exact ⟨k0, le_refl k0, hk0, hlsl, by omega⟩
  | cons k ks ih =>
    intro k0 st hpair hmem hk0 hlsl
    rw [List.pairwise_cons] at hpair
    obtain ⟨hkle, hpair'⟩ := hpair
    obtain ⟨hk0k, hkN⟩ := hmem k (List.mem_cons_self k ks)
    have hmono := writeBoundary_mono writes hk0k
    rw [List.map_cons, List.foldl_cons]
    by_cases hdrop : (writeBoundary writes k).drop st.lastSentLength = []
    · rw [progressStep_of_drop_eq_nil st (writeBoundary writes k) hdrop]
      exact ih k0 st hpair' (fun x hx => hmem x (List.mem_cons_of_mem k hx)) hk0 hlsl
    · rw [progressStep_of_drop_ne_nil st (writeBoundary writes k) hdrop]
      have hlen : (writeBoundary writes k0).length < (writeBoundary writes k).length := by
        by_contra hle
        apply hdrop
        rw [hlsl]
        exact List.drop_eq_nil_of_le (by omega)
      have hk0k' : k0 < k := by
        by_contra hle
        have := writeBoundary_length_mono writes (show k ≤ k0 by omega)
        omega
      obtain ⟨k1, hk1a, hk1b, hk1c, hk1d⟩ :=
        ih k ⟨st.chunks ++ [(writeBoundary writes k).drop st.lastSentLength],
              (writeBoundary writes k).length⟩
          hpair' (fun x hx => ⟨hkle x hx, (hmem x (List.mem_cons_of_mem k hx)).2⟩)
          hkN rfl
      refine ⟨k1, by omega, hk1b, hk1c, ?_⟩
      rw [List.length_append] at hk1d
      simp only [List.length_singleton] at hk1d
      omega

theorem streamRun_eq_foldl (obs : List (List Nat)) (finalText : List Nat) :
    streamRun obs finalText
      = ((obs ++ [finalText]).foldl progressStep ⟨[], 0⟩).chunks := by
  rw [streamRun, List.foldl_append, List.foldl_cons, List.foldl_nil,
    finalFlush_eq_progressStep]

/-- Claim C1: for every monotonically growing response buffer observed across
successive polls, the reconstructed chunk sequence concatenates to the final
full response text with every chunk non-empty (so each byte range is
delivered exactly once), and when the observed snapshots are the buffer
states after the origin's discrete writes, a run over N writes produces at
most N + 1 non-empty chunks. -/
theorem c1_stream_reconstruction :
    (∀ observations finalText, growsTo (observations ++ [finalText]) →
      (streamRun observations finalText).flatten = finalText
        ∧ ∀ c ∈ streamRun observations finalText, c ≠ []) ∧
    (∀ (writes : List (List Nat)) (ks : List Nat),
      List.Pairwise (· ≤ ·) ks → (∀ k ∈ ks, k ≤ writes.length) →
      (streamRun (ks.map (writeBoundary writes)) writes.flatten).length
        ≤ writes.length + 1) := by
  constructor
  · intro obs finalText hg
    have h := foldl_progress_chain (obs ++ [finalText]) [] ⟨[], 0⟩ rfl rfl
      (by intro c hc; cases hc) hg
    rw [List.getLastD_concat] at h
    rw [streamRun_eq_foldl]
    exact ⟨h.1, h.2.2⟩
  · intro writes ks hpair hmem
    have hmap : ks.map (writeBoundary writes) ++ [writes.flatten]
        = (ks ++ [writes.length]).map (writeBoundary writes) := by
      rw [List.map_append, List.map_singleton, writeBoundary_full]
    have hpair' : List.Pairwise (· ≤ ·) (ks ++ [writes.length]) := by
      rw [List.pairwise_append]
      refine ⟨hpair, List.pairwise_singleton _ _, ?_⟩
      intro a ha b hb
      rw [List.mem_singleton] at hb
      subst hb
      exact hmem a ha
    obtain ⟨k1, _, hk1N, _, hcount⟩ :=
      foldl_progress_bound writes (ks ++ [writes.length]) 0 ⟨[], 0⟩ hpair'
        (by
          intro k hk
          refine ⟨Nat.zero_le k, ?_⟩
          rcases List.mem_append.mp hk with h | h
          · exact hmem k h
          · rw [List.mem_singleton] at h
            omega)
        (Nat.zero_le _) rfl
    rw [streamRun_eq_foldl, hmap]
    simp only [List.length_nil] at hcount
    omega

/-- Witness for claim C1 at a concrete run: two polls observing a growing
buffer and a final flush over the full text, and a two-write origin. -/
theorem c1_stream_reconstruction_witness :
    ((streamRun [[1], [1, 2]] [1, 2, 3]).flatten = [1, 2, 3]
      ∧ ∀ c ∈ streamRun [[1], [1, 2]] [1, 2, 3], c ≠ [])
    ∧ (streamRun (([0, 1] : List Nat).map (writeBoundary [[1, 2], [3]]))
        ([[1, 2], [3]] : List (List Nat)).flatten).length
        ≤ ([[1, 2], [3]] : List (List Nat)).length + 1 :=
  ⟨c1_stream_reconstruction.1 [[1], [1, 2]] [1, 2, 3]
      (List.Chain.cons rfl (List.Chain.cons rfl (List.Chain.cons rfl List.Chain.nil))),
   c1_stream_reconstruction.2 [[1, 2], [3]] [0, 1] (by decide) (by decide)⟩

/-- Counterexample to claim C2 as stated: the sanitizer claim forbids
proxy-chain/x-forwarded headers in the output and promises that every other
key (such as accept-encoding, absent from the claim's forbidden set) is
preserved, yet the code keeps x-forwarded-for and drops accept-encoding. -/
theorem c2_counterexample :
    filterUnsafeHeaders [("x-forwarded-for", "1.2.3.4"), ("accept-encoding", "gzip")]
      = [("x-forwarded-for", "1.2.3.4")] := by decide

/-- Claim C2 (amended): for every header map, the sanitizer output contains
no key whose lowercase form is in the code's unsafe set or starts with sec-
or proxy-; every entry with a safe key is preserved with its original key and
value unchanged, and nothing else is added; the sanitizer is a total
function. -/
theorem c2_amended (headers : List (String × String)) :
    (∀ kv ∈ filterUnsafeHeaders headers, isUnsafeKey kv.1 = false)
      ∧ (∀ kv ∈ headers, isUnsafeKey kv.1 = false → kv ∈ filterUnsafeHeaders headers)
      ∧ (∀ kv ∈ filterUnsafeHeaders headers, kv ∈ headers) := by
  refine ⟨?_, ?_, ?_⟩
  · intro kv h
    have hp := (List.mem_filter.mp h).2
    simpa using hp
  · intro kv h hs
    exact List.mem_filter.mpr ⟨h, by simp [hs]⟩
  · intro kv h
    exact (List.mem_filter.mp h).1

/-- Witness for claim C2 (amended): a safe custom header passes through the
sanitizer unchanged while a cookie header is dropped. -/
theorem c2_amended_witness :
    ("x-custom", "1") ∈ filterUnsafeHeaders [("cookie", "a"), ("x-custom", "1")] :=
  (c2_amended [("cookie", "a"), ("x-custom", "1")]).2.1
    ("x-custom", "1") (by decide) (by decide)

/-- Claim C3: the classifier answers Streaming exactly when the accept header
carries an event-stream or generic-stream media type, or the URL contains one
of the five streaming markers, or the content type is JSON and the URL
contains stream. Header reads are exact lookups of the lowercase keys, as the
inbound server normalises keys to lowercase; the classifier is a pure
function of its two arguments. -/
theorem c3_classifier_condition (headers : List (String × String)) (url : String) :
    isStreamRequest headers url = true
      ↔ (claimAcceptClause headers ∨ claimUrlClause url ∨ claimJsonClause headers url) := by
  unfold isStreamRequest claimAcceptClause claimUrlClause claimJsonClause
  simp only [Bool.or_eq_true, Bool.and_eq_true]
  tauto

/-- Counterexample to claim C4 as stated: two header maps that differ only in
the casing of one key classify differently, because the classifier reads the
accept header by exact lowercase key. -/
theorem c4_counterexample :
    isStreamRequest [("Accept", "text/event-stream")] "http://example.com/api" = false
      ∧ isStreamRequest [("accept", "text/event-stream")] "http://example.com/api" = true := by
  decide

/-- Claim C4 (amended): the classifier is a deterministic total function, and
its result depends only on the exact-key lookups of accept and content-type
together with the URL, so any change to a header map (including re-casing
every other key) that preserves those two lookups preserves the
classification; re-casing the accept or content-type key itself can change
the result. -/
theorem c4_amended (h1 h2 : List (String × String)) (url : String)
    (ha : h1.lookup ("accept") = h2.lookup ("accept"))
    (hc : h1.lookup ("content-type") = h2.lookup ("content-type")) :
    isStreamRequest h1 url = isStreamRequest h2 url := by
  unfold isStreamRequest acceptOf contentTypeOf
  rw [ha, hc]

/-- Witness for claim C4 (amended): re-casing a key other than accept and
content-type does not change the classification. -/
theorem c4_amended_witness :
    isStreamRequest [("X-Custom", "1"), ("accept", "text/event-stream")] "u"
      = isStreamRequest [("x-custom", "1"), ("accept", "text/event-stream")] "u" :=
  c4_amended _ _ _ (by decide) (by decide)

/-- Counterexample to claim C5 as stated: in src/index.ts the page is
acquired before the try block, so a failure thrown by page acquisition
crosses the relay boundary as the raw thrown error, stack and all, instead
of being converted to a 500 response. -/
theorem c5_counterexample :
    (handleProxyFull (some "http://example.com")
        (.thrown ⟨"browser.newPage: Target closed", "at Browser.newPage (playwright internals)"⟩)
        (.value ⟨200, "", [], ""⟩) (.value ())).1
      = .thrown ⟨"browser.newPage: Target closed", "at Browser.newPage (playwright internals)"⟩ := by
  rfl

/-- Claim C5 (amended): any failure thrown inside the relay's guarded section
(request preparation, classification, sanitisation, buffered or streaming
execution) yields the fixed 500 text response regardless of the error, and
the unified handler's own error boundary yields a 500 diagnostic that depends
only on the error message, never on the stack; in the part_001 variant page
acquisition is also guarded, while in src/index.ts an acquisition failure
propagates raw (per the counterexample). -/
theorem c5_amended (url : String) (e : JsError) (pc bc : Outcome Unit)
    (b : Outcome ProxyResponse) :
    (handleProxyFull (some url) (.value ()) (.thrown e) (.value ())).1
        = .value internalServerError
      ∧ (handleRequestModel (.thrown e)).status = 500
      ∧ (handleRequestModel (.thrown e)).body = "请求处理失败: " ++ e.message
      ∧ handleRequestModel (.thrown e) = handleRequestModel (.thrown ⟨e.message, ""⟩)
      ∧ (handleProxyFullPartOne (some url) (.thrown e) b pc bc).1
        = .value internalServerError
      ∧ (handleProxyFullPartOne (some url) (.value ()) (.thrown e) pc bc).1
        = .value internalServerError :=
  ⟨rfl, rfl, rfl, rfl, rfl, rfl⟩

/-- Counterexample to claim C6 as stated: in src/index.ts the finally clause
calls page.close() without a catch, so a teardown failure replaces an
already-determined successful primary result. -/
theorem c6_counterexample :
    (handleProxyFull (some "http://example.com") (.value ())
        (.value ⟨200, "OK", [], "hello"⟩)
        (.thrown ⟨"page.close: Target closed", ""⟩)).1
      = .thrown ⟨"page.close: Target closed", ""⟩ := by
  rfl

/-- Claim C6 (amended): whenever a page is acquired, both relay variants
invoke page.close() exactly once on every exit path, and when no page is
acquired no close happens; in the part_001 variant teardown failures are
swallowed so the primary result always stands, and in src/index.ts the
primary result stands whenever teardown succeeds (a teardown throw otherwise
masks it, per the counterexample). -/
theorem c6_amended (url : String) (e : JsError) (b : Outcome ProxyResponse)
    (close pc bc : Outcome Unit) :
    (handleProxyFull (some url) (.value ()) b close).2 = 1
      ∧ (handleProxyFull (some url) (.thrown e) b close).2 = 0
      ∧ (handleProxyFullPartOne (some url) (.value ()) b pc bc).2 = 1
      ∧ (handleProxyFullPartOne (some url) (.value ()) b pc bc).1
        = .value (catchToResponse b)
      ∧ (handleProxyFull (some url) (.value ()) b (.value ())).1
        = .value (catchToResponse b) :=
  ⟨rfl, rfl, rfl, rfl, rfl⟩

/-- Counterexample to claim C7 as stated: a GET request to the root path with
no url parameter is answered with the index page (status 200), not with the
missing-url client error. -/
theorem c7_counterexample :
    (routeNoUrl "GET" "/" none (some "<html>home</html>") internalServerError).status = 200
      ∧ routeNoUrl "GET" "/" none (some "<html>home</html>") internalServerError
        ≠ missingUrlResponse := by
  decide

/-- Claim C7 (amended): every inbound request lacking the url query parameter
receives the fixed 400 Missing url parameter response, regardless of HTTP
method, except when it is served by the /public/* static route, the GET
/genspark route, or the GET / root route. -/
theorem c7_amended (method path : String) (staticFile indexFile : Option String)
    (g : ProxyResponse)
    (h1 : (strStartsWith path ("/public/") && staticFile.isSome) = false)
    (h2 : (method == "GET" && path == "/genspark") = false)
    (h3 : (method == "GET" && path == "/") = false) :
    routeNoUrl method path staticFile indexFile g = missingUrlResponse := by
  unfold routeNoUrl
  rw [h1, h2, h3]
  simp

/-- Witness for claim C7 (amended): a POST to an API path with no url
parameter gets the 400 response. -/
theorem c7_amended_witness :
    routeNoUrl "POST" "/api/chat" none none internalServerError = missingUrlResponse :=
  c7_amended _ _ _ _ _ (by decide) (by decide) (by decide)

/-- Counterexample to claim C8 as stated: the relay injects the fixed
User-Agent into the header map, but the sanitizer then removes it (user-agent
is in the unsafe set), so the header map handed to the in-context transport
contains no user-agent entry at all. -/
theorem c8_counterexample :
    ("user-agent", userAgent) ∈ prepareHeaders [("accept", "application/json")]
      ∧ filterUnsafeHeaders (prepareHeaders [("accept", "application/json")])
        = [("accept", "application/json")] := by decide

/-- Claim C8 (amended): for every inbound header map the relay injects the
fixed User-Agent entry, but the sanitizer strips it before in-context
execution, so the outbound header map never carries a user-agent key (the
browser engine supplies its own). -/
theorem c8_amended (headers : List (String × String)) :
    ("user-agent", userAgent) ∈ prepareHeaders headers
      ∧ ∀ kv ∈ filterUnsafeHeaders (prepareHeaders headers),
          strLower kv.1 ≠ "user-agent" := by
  constructor
  · exact List.mem_append.mpr (Or.inr (List.mem_singleton.mpr rfl))
  · intro kv h heq
    have hp : isUnsafeKey kv.1 = false := by
      have := (List.mem_filter.mp h).2
      simpa using this
    have htrue : isUnsafeKey kv.1 = true := by
      unfold isUnsafeKey
      rw [heq]
      decide
    rw [htrue] at hp
    cases hp

/-- Witness for claim C8 (amended): the accept entry survives the pipeline
and is not a user-agent entry. -/
theorem c8_amended_witness :
    strLower ("accept", "application/json").1 ≠ "user-agent" :=
  (c8_amended [("accept", "application/json")]).2
    ("accept", "application/json") (by decide)

/-- Counterexample to claim C9 as stated: in the part_001 variant every relay
invocation calls launchBrowser, which launches a fresh engine each time, so a
second call returns a different engine handle and two engines have existed in
the process. -/
theorem c9_counterexample :
    (launchBrowser (launchBrowser 0).1).2 ≠ (launchBrowser 0).2
      ∧ (launchBrowser (launchBrowser 0).1).1 = 2 := by decide

theorem runInitCalls_memoised (n : Nat) :
    ∀ (s : BrowserState) (b : Nat), s.browser = some b →
      runInitCalls n s = (s, List.replicate n b) := by
  induction n with
  | zero =>
    intro s b _
    rfl
  | succ n ih =>
    intro s b h
    show (let p := initBrowser s
          let q := runInitCalls n p.1
          (q.1, p.2 :: q.2)) = (s, List.replicate (n + 1) b)
    have hp : initBrowser s = (s, b) := by
      unfold initBrowser
      rw [h]
    rw [hp]
    simp only []
    rw [ih s b h]
    rfl

/-- Claim C9 (amended): src/index.ts initBrowser is an idempotent lazy
singleton under sequential calls: over any sequence of calls starting from
the uninitialised state, exactly one engine launch happens and every caller
receives the same handle; the part_001 variant instead launches a fresh
engine per invocation (per the counterexample). -/
theorem c9_amended (n : Nat) :
    (runInitCalls (n + 1) ⟨none, 0⟩).1 = ⟨some 0, 1⟩
      ∧ (runInitCalls (n + 1) ⟨none, 0⟩).2 = List.replicate (n + 1) 0 := by
  have h0 : initBrowser ⟨none, 0⟩ = (⟨some 0, 1⟩, 0) := rfl
  show (let p := initBrowser (⟨none, 0⟩ : BrowserState)
        let q := runInitCalls n p.1
        (q.1, p.2 :: q.2)).1 = (⟨some 0, 1⟩ : BrowserState)
    ∧ (let p := initBrowser (⟨none, 0⟩ : BrowserState)
        let q := runInitCalls n p.1
        (q.1, p.2 :: q.2)).2 = List.replicate (n + 1) 0
  rw [h0]
  simp only []
  rw [runInitCalls_memoised n ⟨some 0, 1⟩ 0 rfl]
  exact ⟨rfl, rfl⟩

/-- Claim C10: a GET to the root path with no url parameter is handled by the
root route, which serves the index.html content as an HTML 200 response, or a
500 text diagnostic when the file cannot be read, and in no case the
missing-url client error. -/
theorem c10_root_route (c : String) (f : Option String) (g : ProxyResponse) :
    routeNoUrl "GET" "/" none f g = rootNoUrl f
      ∧ rootNoUrl (some c) = ⟨200, "", [("content-type", "text/html")], c⟩
      ∧ rootNoUrl none = ⟨500, "", [("content-type", "text/plain")], "无法读取主页"⟩
      ∧ (rootNoUrl f).status ≠ 400 := by
  refine ⟨rfl, rfl, rfl, ?_⟩
  cases f <;> simp [rootNoUrl]
